import Mathlib

/-!
Shallow embedding of the sticker layout engine of this repository
(`src/client/src/App.jsx`, the `generateLayout` closure, lines 183-376) and
of the parallax guard of `src/client/src/components/Sticker.jsx`.

Numbers are modelled as exact rationals (`ℚ`).  `Math.random()` is modelled
as a stream `r : ℕ → ℚ` consumed left to right; the validity hypothesis
`∀ n, 0 ≤ r n ∧ r n < 1` mirrors its codomain `[0,1)`.  The DOM-derived
inputs (viewport size, exclusion zones, safe zone, catalog length) are
explicit parameters, exactly as the spec's `computeLayout` contract lists
them.  Catalog entries are represented by their index into the catalog,
since the engine only ever reads `stickers[i % stickers.length]`.
-/

/-- `ExclusionZone` / `SafeZone`: an axis-aligned rectangle in
percentage-of-viewport coordinates (App.jsx lines 213-219, 233-239). -/
structure Zone where
  xMin : ℚ
  xMax : ℚ
  yMin : ℚ
  yMax : ℚ
deriving DecidableEq, Repr

/-- A grid cell `{ row, col }` (App.jsx lines 287-291). -/
structure Cell where
  row : ℕ
  col : ℕ
deriving DecidableEq, Repr

/-- The `position` object built on acceptance (App.jsx lines 358-363);
`left`/`top` are the percentage strings' numeric values. -/
structure Position where
  left : ℚ
  top : ℚ
  rotation : ℚ
  scale : ℚ
deriving DecidableEq, Repr

/-- One entry of `newStickers`: the spread `{...stickerData, ...position}`
(App.jsx line 370), with the catalog entry represented by its index
`i % stickers.length`. -/
structure Placed where
  item : ℕ
  pos : Position
deriving DecidableEq, Repr

/-- App.jsx line 188: `const EXCLUSION_BUFFER_PX = -50;` (note the sign). -/
def EXCLUSION_BUFFER_PX : ℚ := -50

/-- App.jsx line 189. -/
def STICKER_BASE_WIDTH : ℚ := 300

/-- App.jsx line 190. -/
def STICKER_BASE_HEIGHT : ℚ := 300

/-- App.jsx lines 193-196:
`totalStickers = Math.max(10, Math.floor(20 * (innerWidth*innerHeight)/(1920*1080)))`. -/
def totalStickersOf (innerWidth innerHeight : ℚ) : ℕ :=
  (max 10 ⌊20 * (innerWidth * innerHeight / (1920 * 1080))⌋).toNat

/-- App.jsx line 198:
`baseScale = Math.max(0.5, Math.min(1.5, ratio * 1.2))`. -/
def baseScaleOf (innerWidth innerHeight : ℚ) : ℚ :=
  max 0.5 (min 1.5 (innerWidth * innerHeight / (1920 * 1080) * 1.2))

/-- Exclusion-zone derivation for one measured rectangle
(App.jsx lines 208-221): convert the rect to percentages and move each edge
outward by `EXCLUSION_BUFFER_PX` converted to a percentage per axis. -/
structure DomRect where
  left : ℚ
  right : ℚ
  top : ℚ
  bottom : ℚ
deriving DecidableEq, Repr

def exclusionZoneOf (rect : DomRect) (innerWidth innerHeight : ℚ) : Zone :=
  { xMin := rect.left / innerWidth * 100 - EXCLUSION_BUFFER_PX / innerWidth * 100
    xMax := rect.right / innerWidth * 100 + EXCLUSION_BUFFER_PX / innerWidth * 100
    yMin := rect.top / innerHeight * 100 - EXCLUSION_BUFFER_PX / innerHeight * 100
    yMax := rect.bottom / innerHeight * 100 + EXCLUSION_BUFFER_PX / innerHeight * 100 }

/-- The AABB test of `overlapsExclusionZone` against one zone
(App.jsx lines 262-273): the sticker's bounding box is the base 300x300
footprint scaled by `scale`, converted to percentage, centred at `(x, y)`. -/
def aabbOverlapsZone (innerWidth innerHeight x y scale : ℚ) (zone : Zone) : Bool :=
  let stickerWidthPct := STICKER_BASE_WIDTH * scale / innerWidth * 100
  let stickerHeightPct := STICKER_BASE_HEIGHT * scale / innerHeight * 100
  decide (x + stickerWidthPct / 2 > zone.xMin) &&
  decide (x - stickerWidthPct / 2 < zone.xMax) &&
  decide (y + stickerHeightPct / 2 > zone.yMin) &&
  decide (y - stickerHeightPct / 2 < zone.yMax)

/-- `overlapsExclusionZone(x, y, scale)` (App.jsx lines 255-279). -/
def overlapsExclusionZone (zones : List Zone) (innerWidth innerHeight x y scale : ℚ) : Bool :=
  zones.any (aabbOverlapsZone innerWidth innerHeight x y scale)

/-- `const inSafeZone = safeZone && x > ... && y < ...` (App.jsx lines 336-341);
a `null` safe zone is falsy. -/
def inSafeZoneB (sz : Option Zone) (x y : ℚ) : Bool :=
  match sz with
  | none => false
  | some z =>
      decide (x > z.xMin) && decide (x < z.xMax) &&
      decide (y > z.yMin) && decide (y < z.yMax)

/-- Least `n` with `m ≤ n * n`, by fuelled upward search. -/
def leastSqGeAux (m : ℕ) : ℕ → ℕ → ℕ
  | 0, n => n
  | fuel + 1, n => if m ≤ n * n then n else leastSqGeAux m fuel (n + 1)

def leastSqGe (m : ℕ) : ℕ := leastSqGeAux m m 0

/-- `Math.ceil(Math.sqrt(q))` for `q ≥ 0`, over exact rationals: the least
natural `n` with `q ≤ n²` (equivalently `⌈q⌉ ≤ n²`, since `n²` is an integer). -/
def jsCeilSqrt (q : ℚ) : ℕ := leastSqGe ⌈q⌉.toNat

/-- App.jsx line 282-283:
`gridRows = Math.ceil(Math.sqrt(totalStickers / aspectRatio))`,
`aspectRatio = innerWidth / innerHeight`. -/
def gridRowsOf (innerWidth innerHeight : ℚ) : ℕ :=
  jsCeilSqrt ((totalStickersOf innerWidth innerHeight : ℚ) / (innerWidth / innerHeight))

/-- App.jsx line 284: `gridCols = Math.ceil(totalStickers / gridRows)`. -/
def gridColsOf (innerWidth innerHeight : ℚ) : ℕ :=
  ⌈(totalStickersOf innerWidth innerHeight : ℚ) / (gridRowsOf innerWidth innerHeight : ℚ)⌉.toNat

/-- Row-major grid-cell list (App.jsx lines 287-291). -/
def gridCellsOf (rows cols : ℕ) : List Cell :=
  (List.range rows).flatMap (fun row => (List.range cols).map (fun col => ⟨row, col⟩))

/-- `[l[i], l[j]] = [l[j], l[i]]` (App.jsx line 296). -/
def swapAt' (l : List Cell) (i j : ℕ) : List Cell :=
  match l.get? i, l.get? j with
  | some a, some b => (l.set i b).set j a
  | _, _ => l

/-- JS `Math.floor(q)` truncated to a natural index. -/
def jsFloorNat (q : ℚ) : ℕ := ⌊q⌋.toNat

/-- The Fisher-Yates loop (App.jsx lines 294-297): loop variable counts
down from `length - 1` while `> 0`; each step draws one random and swaps. -/
def shuffleAux (r : ℕ → ℚ) : ℕ → List Cell → ℕ → List Cell × ℕ
  | 0, l, rix => (l, rix)
  | i + 1, l, rix =>
      shuffleAux r i (swapAt' l (i + 1) (jsFloorNat (r rix * ((i + 1 : ℕ) + 1 : ℚ)))) (rix + 1)

def shuffle (r : ℕ → ℚ) (l : List Cell) (rix : ℕ) : List Cell × ℕ :=
  shuffleAux r (l.length - 1) l rix

/-- All inputs of the per-slot placement loop that stay fixed during one
layout pass. -/
structure Env where
  innerWidth : ℚ
  innerHeight : ℚ
  safeZone : Option Zone
  exclusionZones : List Zone
  gridCells : List Cell
  cellWidth : ℚ
  cellHeight : ℚ
  jitterX : ℚ
  jitterY : ℚ
  baseScale : ℚ

/-- `x = cellCenterX + (Math.random() - 0.5) * jitterX` (App.jsx lines 317-322),
with `u` the random draw. -/
def candidateX (e : Env) (cell : Cell) (u : ℚ) : ℚ :=
  ((cell.col : ℚ) + 0.5) * e.cellWidth + (u - 0.5) * e.jitterX

def candidateY (e : Env) (cell : Cell) (u : ℚ) : ℚ :=
  ((cell.row : ℚ) + 0.5) * e.cellHeight + (u - 0.5) * e.jitterY

/-- `stickerScale = baseScale * (0.9 + Math.random() * 0.4)` (App.jsx line 326). -/
def candScale (e : Env) (u : ℚ) : ℚ := e.baseScale * (0.9 + u * 0.4)

/-- The three acceptance tests (App.jsx lines 329-347):
`inBounds && !inSafeZone && !overlapsExclusion`. -/
def acceptB (e : Env) (x y s : ℚ) : Bool :=
  (decide (x ≥ 0) && decide (x ≤ 100) && decide (y ≥ 0) && decide (y ≤ 100)) &&
  !(inSafeZoneB e.safeZone x y) &&
  !(overlapsExclusionZone e.exclusionZones e.innerWidth e.innerHeight x y s)

/-- The accepted `position` object (App.jsx lines 349-363): top-left anchor
is the centre minus half the percentage footprint; `rot` is the random draw
for the rotation. -/
def mkPosition (e : Env) (x y s rot : ℚ) : Position :=
  { left := x - STICKER_BASE_WIDTH * s / e.innerWidth * 100 / 2
    top := y - STICKER_BASE_HEIGHT * s / e.innerHeight * 100 / 2
    rotation := (rot - 0.5) * 60
    scale := s }

/-- The inner `while` loop for one item slot (App.jsx lines 312-368).
State: remaining attempts budget (`fuel`, starts at `gridCells.length`),
cell cursor `k`, random-stream index `rix`.  Each candidate consumes the
jitter-x, jitter-y and scale randoms in that order; the rotation random is
consumed only on acceptance.  Returns the accepted position (if any), the
cursor at exit (unchanged by an acceptance, as in the source, where the
post-loop `cellIndex++` is executed by the caller), and the stream index. -/
def tryPlaceAux (e : Env) (r : ℕ → ℚ) : ℕ → ℕ → ℕ → Option Position × ℕ × ℕ
  | 0, k, rix => (none, k, rix)
  | fuel + 1, k, rix =>
      if h : k < e.gridCells.length then
        if acceptB e (candidateX e (e.gridCells.get ⟨k, h⟩) (r rix))
            (candidateY e (e.gridCells.get ⟨k, h⟩) (r (rix + 1)))
            (candScale e (r (rix + 2))) then
          (some (mkPosition e (candidateX e (e.gridCells.get ⟨k, h⟩) (r rix))
              (candidateY e (e.gridCells.get ⟨k, h⟩) (r (rix + 1)))
              (candScale e (r (rix + 2))) (r (rix + 3))),
            k, rix + 4)
        else
          tryPlaceAux e r fuel (k + 1) (rix + 3)
      else (none, k, rix)

/-- The outer `for` loop over item slots (App.jsx lines 307-372),
instrumented: alongside each emitted record we keep the index of the grid
cell it was accepted from (the cursor value at acceptance).  `slots` counts
the remaining iterations, `i` is the loop variable, `k` the shared cell
cursor, `rix` the random-stream index.  On success the caller-side
`cellIndex++` advances the cursor past the used cell. -/
def placeLoopAux (e : Env) (r : ℕ → ℚ) (stickersLen : ℕ) :
    ℕ → ℕ → ℕ → ℕ → List (Placed × ℕ)
  | 0, _, _, _ => []
  | slots + 1, i, k, rix =>
      match tryPlaceAux e r e.gridCells.length k rix with
      | (some pos, usedIdx, rix') =>
          ({ item := i % stickersLen, pos := pos }, usedIdx) ::
            placeLoopAux e r stickersLen slots (i + 1) (usedIdx + 1) rix'
      | (none, k', rix') =>
          placeLoopAux e r stickersLen slots (i + 1) k' rix'

/-- Everything `generateLayout` computes before the per-slot loop
(App.jsx lines 281-305): grid shape, shuffled cell list, cell sizes,
jitter amplitudes, base scale. -/
def layoutEnv (w h : ℚ) (zones : List Zone) (sz : Option Zone) (r : ℕ → ℚ) : Env :=
  { innerWidth := w
    innerHeight := h
    safeZone := sz
    exclusionZones := zones
    gridCells := (shuffle r (gridCellsOf (gridRowsOf w h) (gridColsOf w h)) 0).1
    cellWidth := 100 / (gridColsOf w h : ℚ)
    cellHeight := 100 / (gridRowsOf w h : ℚ)
    jitterX := 100 / (gridColsOf w h : ℚ) * 0.5
    jitterY := 100 / (gridRowsOf w h : ℚ) * 0.5
    baseScale := baseScaleOf w h }

/-- One full layout pass with the cell-index instrumentation. -/
def generateLayoutTrace (w h : ℚ) (stickersLen : ℕ) (zones : List Zone)
    (sz : Option Zone) (r : ℕ → ℚ) : List (Placed × ℕ) :=
  placeLoopAux (layoutEnv w h zones sz r) r stickersLen (totalStickersOf w h) 0 0
    (shuffle r (gridCellsOf (gridRowsOf w h) (gridColsOf w h)) 0).2

/-- `generateLayout` (App.jsx lines 183-376): the emitted `newStickers`
list, i.e. the trace without the instrumentation. -/
def generateLayout (w h : ℚ) (stickersLen : ℕ) (zones : List Zone)
    (sz : Option Zone) (r : ℕ → ℚ) : List Placed :=
  (generateLayoutTrace w h stickersLen zones sz r).map Prod.fst

/-- Pointer/orientation events feeding the Sticker parallax effect
(Sticker.jsx lines 30-48). -/
inductive PointerEvent where
  | mouse (clientX clientY : ℚ)
  | orientation (gamma beta : ℚ)
deriving DecidableEq, Repr

/-- The parallax offset applied by `Sticker` (Sticker.jsx lines 18-48):
for `parallaxFactor ≤ 0` (or falsy `0`) the effect sets `(0,0)` and attaches
no handlers, so the division by `parallaxFactor` is never reached. -/
def stickerOffset (parallaxFactor innerWidth innerHeight : ℚ) (e : PointerEvent) : ℚ × ℚ :=
  if parallaxFactor ≤ 0 then (0, 0)
  else
    match e with
    | .mouse cx cy =>
        ((cx - innerWidth / 2) / parallaxFactor, (cy - innerHeight / 2) / parallaxFactor)
    | .orientation gamma beta =>
        let clampedGamma := max (-45) (min 45 gamma)
        let clampedBeta := max (-45) (min 45 beta)
        (clampedGamma / 45 * (innerWidth / 2 / parallaxFactor),
         clampedBeta / 45 * (innerHeight / 2 / parallaxFactor))

/-! ### Arithmetic facts about the count, scale and grid-shape functions -/

lemma leastSqGeAux_sq_le (m : ℕ) :
    ∀ fuel n, m ≤ (n + fuel) * (n + fuel) → m ≤ leastSqGeAux m fuel n * leastSqGeAux m fuel n := by
  intro fuel
  induction fuel with
  | zero => intro n h; simpa [leastSqGeAux] using h
  | succ fuel ih =>
      intro n h
      rw [leastSqGeAux]
      by_cases hmn : m ≤ n * n
      · simp [hmn]
      · simp only [hmn, if_false]
        have hEq : n + (fuel + 1) = n + 1 + fuel := by omega
        rw [hEq] at h
        exact ih (n + 1) h

lemma leastSqGe_sq_le (m : ℕ) : m ≤ leastSqGe m * leastSqGe m := by
  refine leastSqGeAux_sq_le m m 0 ?_
  rcases Nat.eq_zero_or_pos m with h0 | hpos
  · simp [h0]
  · calc m = m * 1 := (Nat.mul_one m).symm
      _ ≤ m * m := Nat.mul_le_mul_left m hpos
      _ ≤ (0 + m) * (0 + m) := by simp

lemma jsCeilSqrt_pos {q : ℚ} (hq : 0 < q) : 0 < jsCeilSqrt q := by
  rw [jsCeilSqrt]
  rcases Nat.eq_zero_or_pos (leastSqGe ⌈q⌉.toNat) with h0 | h
  · exfalso
    have h1 := leastSqGe_sq_le ⌈q⌉.toNat
    rw [h0] at h1
    have h2 : ⌈q⌉.toNat = 0 := by omega
    have h3 : (0 : ℤ) < ⌈q⌉ := Int.ceil_pos.mpr hq
    omega
  · exact h

lemma totalStickersOf_ge (w h : ℚ) : 10 ≤ totalStickersOf w h := by
  rw [totalStickersOf]
  have h1 : (10 : ℤ) ≤ max 10 ⌊20 * (w * h / (1920 * 1080))⌋ := le_max_left _ _
  omega

lemma gridRowsOf_pos {w h : ℚ} (hw : 0 < w) (hh : 0 < h) : 0 < gridRowsOf w h := by
  rw [gridRowsOf]
  refine jsCeilSqrt_pos ?_
  have h10 : 10 ≤ totalStickersOf w h := totalStickersOf_ge w h
  have hts : (0 : ℚ) < (totalStickersOf w h : ℚ) := by
    exact_mod_cast Nat.lt_of_lt_of_le (by norm_num) h10
  positivity

lemma gridColsOf_pos {w h : ℚ} (hw : 0 < w) (hh : 0 < h) : 0 < gridColsOf w h := by
  rw [gridColsOf]
  have h10 : 10 ≤ totalStickersOf w h := totalStickersOf_ge w h
  have hts : (0 : ℚ) < (totalStickersOf w h : ℚ) := by
    exact_mod_cast Nat.lt_of_lt_of_le (by norm_num) h10
  have hrows : (0 : ℚ) < (gridRowsOf w h : ℚ) := by
    exact_mod_cast gridRowsOf_pos hw hh
  have hdiv : (0 : ℚ) < (totalStickersOf w h : ℚ) / (gridRowsOf w h : ℚ) := by positivity
  have hceil : (0 : ℤ) < ⌈(totalStickersOf w h : ℚ) / (gridRowsOf w h : ℚ)⌉ :=
    Int.ceil_pos.mpr hdiv
  omega

lemma baseScaleOf_le (w h : ℚ) : baseScaleOf w h ≤ 1.5 := by
  rw [baseScaleOf]
  exact max_le (by norm_num) (min_le_left _ _)

lemma baseScaleOf_ge (w h : ℚ) : 0.5 ≤ baseScaleOf w h := le_max_left _ _

/-! ### Grid construction and Fisher-Yates shuffle -/

lemma mem_gridCellsOf {c : Cell} {rows cols : ℕ} (hc : c ∈ gridCellsOf rows cols) :
    c.row < rows ∧ c.col < cols := by
  simp only [gridCellsOf, List.mem_flatMap, List.mem_map, List.mem_range] at hc
  obtain ⟨row, hrow, col, hcol, rfl⟩ := hc
  exact ⟨hrow, hcol⟩

lemma length_gridCellsOf (rows cols : ℕ) : (gridCellsOf rows cols).length = rows * cols := by
  induction rows with
  | zero => simp [gridCellsOf]
  | succ n ih =>
      rw [gridCellsOf, List.range_succ, List.flatMap_append] at *
      simp only [List.length_append, ih, List.flatMap_cons, List.flatMap_nil,
        List.append_nil, List.length_map, List.length_range]
      ring

lemma swapAt'_length (l : List Cell) (i j : ℕ) : (swapAt' l i j).length = l.length := by
  rw [swapAt']
  rcases hi : l.get? i with _ | a <;> rcases hj : l.get? j with _ | b <;> simp

lemma swapAt'_subset {l : List Cell} {i j : ℕ} {x : Cell} (hx : x ∈ swapAt' l i j) : x ∈ l := by
  rw [swapAt'] at hx
  rcases hi : l.get? i with _ | a <;> rcases hj : l.get? j with _ | b <;>
    rw [hi, hj] at hx <;> try exact hx
  have ha : a ∈ l := List.get?_mem hi
  have hb : b ∈ l := List.get?_mem hj
  rcases List.mem_or_eq_of_mem_set hx with hx' | rfl
  · rcases List.mem_or_eq_of_mem_set hx' with hx'' | rfl
    · exact hx''
    · exact hb
  · exact ha

lemma shuffleAux_length (r : ℕ → ℚ) :
    ∀ i l rix, (shuffleAux r i l rix).1.length = l.length := by
  intro i
  induction i with
  | zero => intro l rix; simp [shuffleAux]
  | succ n ih => intro l rix; rw [shuffleAux, ih, swapAt'_length]

lemma shuffleAux_subset (r : ℕ → ℚ) :
    ∀ i l rix x, x ∈ (shuffleAux r i l rix).1 → x ∈ l := by
  intro i
  induction i with
  | zero => intro l rix x hx; simpa [shuffleAux] using hx
  | succ n ih =>
      intro l rix x hx
      rw [shuffleAux] at hx
      exact swapAt'_subset (ih _ _ x hx)

lemma shuffle_length (r : ℕ → ℚ) (l : List Cell) (rix : ℕ) :
    (shuffle r l rix).1.length = l.length := shuffleAux_length r _ l rix

lemma shuffle_subset {r : ℕ → ℚ} {l : List Cell} {rix : ℕ} {x : Cell}
    (hx : x ∈ (shuffle r l rix).1) : x ∈ l := shuffleAux_subset r _ l rix x hx

/-! ### Jittered candidate centres stay strictly inside the viewport -/

lemma jittered_coord_bounds (m : ℕ) (hm : 0 < m) (c : ℕ) (hc : c < m) (u : ℚ)
    (hu0 : 0 ≤ u) (hu1 : u < 1) :
    0 < ((c : ℚ) + 0.5) * (100 / (m : ℚ)) + (u - 0.5) * (100 / (m : ℚ) * 0.5) ∧
    ((c : ℚ) + 0.5) * (100 / (m : ℚ)) + (u - 0.5) * (100 / (m : ℚ) * 0.5) < 100 := by
  have hmq : (0 : ℚ) < (m : ℚ) := by exact_mod_cast hm
  have hcw : (0 : ℚ) < 100 / (m : ℚ) := by positivity
  have hcq : (c : ℚ) + 1 ≤ (m : ℚ) := by exact_mod_cast hc
  have hc0 : (0 : ℚ) ≤ (c : ℚ) := by positivity
  have hmul : (m : ℚ) * (100 / (m : ℚ)) = 100 := by field_simp
  constructor
  · nlinarith [mul_nonneg hc0 hcw.le]
  · nlinarith [mul_le_mul_of_nonneg_right hcq hcw.le]

/-! ### The inner while loop (one item slot) -/

lemma tryPlaceAux_cursor_le (e : Env) (r : ℕ → ℚ) :
    ∀ fuel k rix, k ≤ (tryPlaceAux e r fuel k rix).2.1 := by
  intro fuel
  induction fuel with
  | zero => intro k rix; simp [tryPlaceAux]
  | succ n ih =>
      intro k rix
      rw [tryPlaceAux]
      split
      · split
        · simp
        · exact le_trans (Nat.le_succ k) (ih (k + 1) (rix + 3))
      · simp

lemma tryPlaceAux_some_spec (e : Env) (r : ℕ → ℚ) :
    ∀ fuel k rix pos k' rix',
      tryPlaceAux e r fuel k rix = (some pos, k', rix') →
      k ≤ k' ∧ ∃ (hk : k' < e.gridCells.length) (j : ℕ),
        rix ≤ j ∧ rix' = j + 4 ∧
        pos = mkPosition e (candidateX e (e.gridCells.get ⟨k', hk⟩) (r j))
          (candidateY e (e.gridCells.get ⟨k', hk⟩) (r (j + 1)))
          (candScale e (r (j + 2))) (r (j + 3)) ∧
        acceptB e (candidateX e (e.gridCells.get ⟨k', hk⟩) (r j))
          (candidateY e (e.gridCells.get ⟨k', hk⟩) (r (j + 1)))
          (candScale e (r (j + 2))) = true := by
  intro fuel
  induction fuel with
  | zero => intro k rix pos k' rix' h; simp [tryPlaceAux] at h
  | succ n ih =>
      intro k rix pos k' rix' h
      rw [tryPlaceAux] at h
      by_cases hk : k < e.gridCells.length
      · rw [dif_pos hk] at h
        by_cases hacc : acceptB e (candidateX e (e.gridCells.get ⟨k, hk⟩) (r rix))
            (candidateY e (e.gridCells.get ⟨k, hk⟩) (r (rix + 1)))
            (candScale e (r (rix + 2))) = true
        · rw [if_pos hacc] at h
          simp only [Prod.mk.injEq, Option.some.injEq] at h
          obtain ⟨hpos, hkk, hrix⟩ := h
          subst hkk
          subst hrix
          exact ⟨le_refl k, hk, rix, le_refl rix, rfl, hpos.symm, hacc⟩
        · rw [if_neg hacc] at h
          obtain ⟨hle, hk', j, hj, hr4, hpos, hacc'⟩ := ih (k + 1) (rix + 3) pos k' rix' h
          exact ⟨by omega, hk', j, by omega, hr4, hpos, hacc'⟩
      · rw [dif_neg hk] at h
        simp at h

lemma tryPlaceAux_accept (e : Env) (r : ℕ → ℚ) (fuel k rix : ℕ) (hfuel : 0 < fuel)
    (hk : k < e.gridCells.length)
    (hacc : acceptB e (candidateX e (e.gridCells.get ⟨k, hk⟩) (r rix))
      (candidateY e (e.gridCells.get ⟨k, hk⟩) (r (rix + 1)))
      (candScale e (r (rix + 2))) = true) :
    tryPlaceAux e r fuel k rix =
      (some (mkPosition e (candidateX e (e.gridCells.get ⟨k, hk⟩) (r rix))
        (candidateY e (e.gridCells.get ⟨k, hk⟩) (r (rix + 1)))
        (candScale e (r (rix + 2))) (r (rix + 3))), k, rix + 4) := by
  obtain ⟨n, rfl⟩ : ∃ n, fuel = n + 1 := ⟨fuel - 1, by omega⟩
  rw [tryPlaceAux, dif_pos hk, if_pos hacc]

lemma tryPlaceAux_none_of_reject (e : Env) (r : ℕ → ℚ)
    (hrej : ∀ (k : ℕ) (hk : k < e.gridCells.length) (rix : ℕ),
      acceptB e (candidateX e (e.gridCells.get ⟨k, hk⟩) (r rix))
        (candidateY e (e.gridCells.get ⟨k, hk⟩) (r (rix + 1)))
        (candScale e (r (rix + 2))) = false) :
    ∀ fuel k rix, (tryPlaceAux e r fuel k rix).1 = none := by
  intro fuel
  induction fuel with
  | zero => intro k rix; simp [tryPlaceAux]
  | succ n ih =>
      intro k rix
      rw [tryPlaceAux]
      by_cases hk : k < e.gridCells.length
      · have hf := hrej k hk rix
        rw [dif_pos hk, if_neg (by rw [hf]; exact Bool.false_ne_true)]
        exact ih (k + 1) (rix + 3)
      · rw [dif_neg hk]

/-! ### The outer for loop over item slots -/

lemma placeLoopAux_length_le (e : Env) (r : ℕ → ℚ) (n : ℕ) :
    ∀ slots i k rix, (placeLoopAux e r n slots i k rix).length ≤ slots := by
  intro slots
  induction slots with
  | zero => intro i k rix; simp [placeLoopAux]
  | succ m ih =>
      intro i k rix
      rw [placeLoopAux]
      rcases htp : tryPlaceAux e r e.gridCells.length k rix with ⟨o, k', rix'⟩
      rcases o with _ | pos
      · exact le_trans (ih (i + 1) k' rix') (Nat.le_succ m)
      · simpa using Nat.succ_le_succ (ih (i + 1) (k' + 1) rix')

lemma placeLoopAux_mem_spec (e : Env) (r : ℕ → ℚ) (n : ℕ) :
    ∀ slots i k rix p c, (p, c) ∈ placeLoopAux e r n slots i k rix →
      ∃ k0 rix0 rix1, tryPlaceAux e r e.gridCells.length k0 rix0 = (some p.pos, c, rix1) := by
  intro slots
  induction slots with
  | zero => intro i k rix p c h; simp [placeLoopAux] at h
  | succ m ih =>
      intro i k rix p c h
      rw [placeLoopAux] at h
      rcases htp : tryPlaceAux e r e.gridCells.length k rix with ⟨o, k', rix'⟩
      rw [htp] at h
      rcases o with _ | pos
      · exact ih (i + 1) k' rix' p c h
      · rcases List.mem_cons.mp h with heq | hmem
        · obtain ⟨hp, hc⟩ := Prod.mk.injEq _ _ _ _ ▸ heq
          refine ⟨k, rix, rix', ?_⟩
          have hp' : p = { item := i % n, pos := pos } := by
            simpa using congrArg Prod.fst heq
          have hc' : c = k' := by simpa using congrArg Prod.snd heq
          rw [hp', hc']
          exact htp
        · exact ih (i + 1) (k' + 1) rix' p c hmem

lemma placeLoopAux_trace (e : Env) (r : ℕ → ℚ) (n : ℕ) :
    ∀ slots i k rix,
      (∀ pc ∈ placeLoopAux e r n slots i k rix, k ≤ pc.2) ∧
      (placeLoopAux e r n slots i k rix).Pairwise (fun a b => a.2 < b.2) := by
  intro slots
  induction slots with
  | zero => intro i k rix; simp [placeLoopAux]
  | succ m ih =>
      intro i k rix
      rw [placeLoopAux]
      rcases htp : tryPlaceAux e r e.gridCells.length k rix with ⟨o, k', rix'⟩
      have hkk' : k ≤ k' := by
        have := tryPlaceAux_cursor_le e r e.gridCells.length k rix
        rw [htp] at this
        exact this
      rcases o with _ | pos
      · obtain ⟨hlb, hpw⟩ := ih (i + 1) k' rix'
        exact ⟨fun pc hpc => le_trans hkk' (hlb pc hpc), hpw⟩
      · obtain ⟨hlb, hpw⟩ := ih (i + 1) (k' + 1) rix'
        constructor
        · intro pc hpc
          rcases List.mem_cons.mp hpc with rfl | hmem
          · exact hkk'
          · exact le_trans hkk' (le_trans (Nat.le_succ k') (hlb pc hmem))
        · refine List.Pairwise.cons ?_ hpw
          intro b hb
          exact Nat.lt_of_lt_of_le (Nat.lt_succ_self k') (hlb b hb)

lemma placeLoopAux_nil_of_reject (e : Env) (r : ℕ → ℚ) (n : ℕ)
    (hnone : ∀ k rix, (tryPlaceAux e r e.gridCells.length k rix).1 = none) :
    ∀ slots i k rix, placeLoopAux e r n slots i k rix = [] := by
  intro slots
  induction slots with
  | zero => intro i k rix; rw [placeLoopAux]
  | succ m ih =>
      intro i k rix
      rw [placeLoopAux]
      rcases htp : tryPlaceAux e r e.gridCells.length k rix with ⟨o, k', rix'⟩
      have h1 := hnone k rix
      rw [htp] at h1
      simp only at h1
      subst h1
      exact ih (i + 1) k' rix'

lemma placeLoopAux_all_accept (e : Env) (r : ℕ → ℚ) (n : ℕ)
    (hacc : ∀ (k : ℕ) (hk : k < e.gridCells.length) (rix : ℕ),
      acceptB e (candidateX e (e.gridCells.get ⟨k, hk⟩) (r rix))
        (candidateY e (e.gridCells.get ⟨k, hk⟩) (r (rix + 1)))
        (candScale e (r (rix + 2))) = true) :
    ∀ slots i k rix, k + slots ≤ e.gridCells.length →
      (placeLoopAux e r n slots i k rix).map (fun pc => pc.1.item) =
        (List.range' i slots).map (fun j => j % n) := by
  intro slots
  induction slots with
  | zero => intro i k rix _; simp [placeLoopAux]
  | succ m ih =>
      intro i k rix hle
      have hk : k < e.gridCells.length := by omega
      rw [placeLoopAux,
        tryPlaceAux_accept e r e.gridCells.length k rix (by omega) hk (hacc k hk rix)]
      simp only [List.map_cons, List.range'_succ]
      rw [ih (i + 1) (k + 1) (rix + 4) (by omega)]

/-! ### What acceptance guarantees for every emitted sticker -/

lemma acceptB_eq_true {e : Env} {x y s : ℚ} (h : acceptB e x y s = true) :
    0 ≤ x ∧ x ≤ 100 ∧ 0 ≤ y ∧ y ≤ 100 ∧ inSafeZoneB e.safeZone x y = false ∧
      overlapsExclusionZone e.exclusionZones e.innerWidth e.innerHeight x y s = false := by
  simp only [acceptB, Bool.and_eq_true, Bool.not_eq_true', decide_eq_true_eq, ge_iff_le] at h
  tauto

lemma generateLayout_mem_spec {w h : ℚ} {n : ℕ} {zones : List Zone} {sz : Option Zone}
    {r : ℕ → ℚ} {p : Placed} (hp : p ∈ generateLayout w h n zones sz r) :
    ∃ x y j, p.pos = mkPosition (layoutEnv w h zones sz r) x y
        (candScale (layoutEnv w h zones sz r) (r (j + 2))) (r (j + 3)) ∧
      acceptB (layoutEnv w h zones sz r) x y
        (candScale (layoutEnv w h zones sz r) (r (j + 2))) = true := by
  rw [generateLayout, generateLayoutTrace] at hp
  obtain ⟨pc, hmem, hfst⟩ := List.mem_map.mp hp
  rcases pc with ⟨p', c⟩
  rcases hfst
  obtain ⟨k0, rix0, rix1, htp⟩ := placeLoopAux_mem_spec _ r n _ _ _ _ _ _ hmem
  obtain ⟨-, hk, j, -, -, hpos, hacc⟩ := tryPlaceAux_some_spec _ r _ _ _ _ _ _ htp
  exact ⟨_, _, j, hpos, hacc⟩

/-! ## Claim theorems -/

/-- C1 counterexample: the claim "the emitted position (top-left anchor) lies
within [0,100] on both axes" is false on the code.  For the valid input
viewport 1920x1080, catalog length 1, no zones, no safe zone, and the valid
random stream constantly 0 (each draw lies in [0,1)), the pass emits an item
whose `top` anchor is negative (its value is -35/4). -/
theorem anchor_out_of_range_cex :
    ((generateLayout 1920 1080 1 [] none fun _ => 0).any fun p =>
      decide (p.pos.top < 0)) = true := by
  with_unfolding_all rfl

/-- C1 (amended): for every layout pass, every emitted item's accepted
*centre* (its top-left anchor plus half its percentage footprint, on each
axis) lies within [0,100] on both axes; the anchor itself is the centre
minus half the footprint and may fall outside that range. -/
theorem placed_center_within_bounds (w h : ℚ) (n : ℕ) (zones : List Zone)
    (sz : Option Zone) (r : ℕ → ℚ) (p : Placed)
    (hp : p ∈ generateLayout w h n zones sz r) :
    0 ≤ p.pos.left + STICKER_BASE_WIDTH * p.pos.scale / w * 100 / 2 ∧
    p.pos.left + STICKER_BASE_WIDTH * p.pos.scale / w * 100 / 2 ≤ 100 ∧
    0 ≤ p.pos.top + STICKER_BASE_HEIGHT * p.pos.scale / h * 100 / 2 ∧
    p.pos.top + STICKER_BASE_HEIGHT * p.pos.scale / h * 100 / 2 ≤ 100 := by
  obtain ⟨x, y, j, hpos, hacc⟩ := generateLayout_mem_spec hp
  obtain ⟨hx0, hx100, hy0, hy100, -, -⟩ := acceptB_eq_true hacc
  rw [hpos]
  simp only [mkPosition, layoutEnv]
  refine ⟨by linarith, by linarith, by linarith, by linarith⟩

theorem placed_center_within_bounds_witness :
    0 ≤ (⟨0, ⟨265/16, -35/4, -30, 27/25⟩⟩ : Placed).pos.left +
        STICKER_BASE_WIDTH * (⟨0, ⟨265/16, -35/4, -30, 27/25⟩⟩ : Placed).pos.scale / 1920 * 100 / 2 ∧
    (⟨0, ⟨265/16, -35/4, -30, 27/25⟩⟩ : Placed).pos.left +
        STICKER_BASE_WIDTH * (⟨0, ⟨265/16, -35/4, -30, 27/25⟩⟩ : Placed).pos.scale / 1920 * 100 / 2 ≤ 100 ∧
    0 ≤ (⟨0, ⟨265/16, -35/4, -30, 27/25⟩⟩ : Placed).pos.top +
        STICKER_BASE_HEIGHT * (⟨0, ⟨265/16, -35/4, -30, 27/25⟩⟩ : Placed).pos.scale / 1080 * 100 / 2 ∧
    (⟨0, ⟨265/16, -35/4, -30, 27/25⟩⟩ : Placed).pos.top +
        STICKER_BASE_HEIGHT * (⟨0, ⟨265/16, -35/4, -30, 27/25⟩⟩ : Placed).pos.scale / 1080 * 100 / 2 ≤ 100 :=
  placed_center_within_bounds 1920 1080 1 [] none (fun _ => 0) _
    (by with_unfolding_all decide)

/-- C2: for every layout pass and every exclusion zone supplied to it, no
emitted item's axis-aligned bounding box (centred at the accepted centre,
sized by the 300x300 base footprint scaled by the item's scale and converted
to percentage of the viewport) overlaps that zone, for arbitrary viewports,
catalogs, zone lists and random streams. -/
theorem placed_avoids_exclusion_zones (w h : ℚ) (n : ℕ) (zones : List Zone)
    (sz : Option Zone) (r : ℕ → ℚ) (p : Placed)
    (hp : p ∈ generateLayout w h n zones sz r) (z : Zone) (hz : z ∈ zones) :
    aabbOverlapsZone w h (p.pos.left + STICKER_BASE_WIDTH * p.pos.scale / w * 100 / 2)
      (p.pos.top + STICKER_BASE_HEIGHT * p.pos.scale / h * 100 / 2) p.pos.scale z = false := by
  obtain ⟨x, y, j, hpos, hacc⟩ := generateLayout_mem_spec hp
  obtain ⟨-, -, -, -, -, hover⟩ := acceptB_eq_true hacc
  have hxc : p.pos.left + STICKER_BASE_WIDTH * p.pos.scale / w * 100 / 2 = x := by
    rw [hpos]; simp only [mkPosition, layoutEnv]; ring
  have hyc : p.pos.top + STICKER_BASE_HEIGHT * p.pos.scale / h * 100 / 2 = y := by
    rw [hpos]; simp only [mkPosition, layoutEnv]; ring
  have hsc : p.pos.scale = candScale (layoutEnv w h zones sz r) (r (j + 2)) := by
    rw [hpos]; rfl
  rw [hxc, hyc, hsc]
  have hover' : overlapsExclusionZone zones w h x y
      (candScale (layoutEnv w h zones sz r) (r (j + 2))) = false := hover
  rw [overlapsExclusionZone, List.any_eq_false] at hover'
  simpa using hover' z hz

theorem placed_avoids_exclusion_zones_witness :
    aabbOverlapsZone 1920 1080
      ((⟨0, ⟨265/16, -35/4, -30, 27/25⟩⟩ : Placed).pos.left +
        STICKER_BASE_WIDTH * (⟨0, ⟨265/16, -35/4, -30, 27/25⟩⟩ : Placed).pos.scale / 1920 * 100 / 2)
      ((⟨0, ⟨265/16, -35/4, -30, 27/25⟩⟩ : Placed).pos.top +
        STICKER_BASE_HEIGHT * (⟨0, ⟨265/16, -35/4, -30, 27/25⟩⟩ : Placed).pos.scale / 1080 * 100 / 2)
      (⟨0, ⟨265/16, -35/4, -30, 27/25⟩⟩ : Placed).pos.scale ⟨200, 201, 200, 201⟩ = false :=
  placed_avoids_exclusion_zones 1920 1080 1 [⟨200, 201, 200, 201⟩] none (fun _ => 0) _
    (by with_unfolding_all decide) _ (by simp)

/-- C10: every emitted item's rotation lies in [-30, 30] degrees and its
scale in [0.45, 1.95]; moreover the scale is `baseScale * u` for some
`u ∈ [0.9, 1.3)` and the rotation is `(v - 0.5) * 60` for some `v ∈ [0, 1)`,
for every input and every valid random stream. -/
theorem placed_rotation_scale_bounds (w h : ℚ) (n : ℕ) (zones : List Zone)
    (sz : Option Zone) (r : ℕ → ℚ) (hr : ∀ k, 0 ≤ r k ∧ r k < 1) (p : Placed)
    (hp : p ∈ generateLayout w h n zones sz r) :
    (-30 ≤ p.pos.rotation ∧ p.pos.rotation ≤ 30) ∧
    (0.45 ≤ p.pos.scale ∧ p.pos.scale ≤ 1.95) ∧
    (∃ u, 0.9 ≤ u ∧ u < 1.3 ∧ p.pos.scale = baseScaleOf w h * u) ∧
    (∃ v, 0 ≤ v ∧ v < 1 ∧ p.pos.rotation = (v - 0.5) * 60) := by
  obtain ⟨x, y, j, hpos, hacc⟩ := generateLayout_mem_spec hp
  obtain ⟨hu0, hu1⟩ := hr (j + 2)
  obtain ⟨hv0, hv1⟩ := hr (j + 3)
  have hbs0 := baseScaleOf_ge w h
  have hbs1 := baseScaleOf_le w h
  have hrot : p.pos.rotation = (r (j + 3) - 0.5) * 60 := by
    rw [hpos]; rfl
  have hsc : p.pos.scale = baseScaleOf w h * (0.9 + r (j + 2) * 0.4) := by
    rw [hpos]; simp only [mkPosition, candScale, layoutEnv]
  refine ⟨⟨by rw [hrot]; linarith, by rw [hrot]; linarith⟩,
          ⟨?_, ?_⟩,
          ⟨0.9 + r (j + 2) * 0.4, by linarith, by linarith, hsc⟩,
          ⟨r (j + 3), hv0, hv1, hrot⟩⟩
  · rw [hsc]; nlinarith
  · rw [hsc]; nlinarith

theorem placed_rotation_scale_bounds_witness :
    (-30 ≤ (⟨0, ⟨265/16, -35/4, -30, 27/25⟩⟩ : Placed).pos.rotation ∧
      (⟨0, ⟨265/16, -35/4, -30, 27/25⟩⟩ : Placed).pos.rotation ≤ 30) ∧
    (0.45 ≤ (⟨0, ⟨265/16, -35/4, -30, 27/25⟩⟩ : Placed).pos.scale ∧
      (⟨0, ⟨265/16, -35/4, -30, 27/25⟩⟩ : Placed).pos.scale ≤ 1.95) ∧
    (∃ u, 0.9 ≤ u ∧ u < 1.3 ∧
      (⟨0, ⟨265/16, -35/4, -30, 27/25⟩⟩ : Placed).pos.scale = baseScaleOf 1920 1080 * u) ∧
    (∃ v, 0 ≤ v ∧ v < 1 ∧
      (⟨0, ⟨265/16, -35/4, -30, 27/25⟩⟩ : Placed).pos.rotation = (v - 0.5) * 60) :=
  placed_rotation_scale_bounds 1920 1080 1 [] none (fun _ => 0)
    (fun _ => ⟨le_refl 0, by norm_num⟩) _ (by with_unfolding_all decide)

/-- C3: a safe zone covering the whole viewport (`xMin=0, xMax=100, yMin=0,
yMax=100`) makes the pass emit zero placements, for every catalog length,
every positive viewport, every zone list and every valid random stream:
each jittered candidate centre lands strictly inside (0,100) on both axes,
hence strictly inside the safe zone, so every cell is rejected. -/
theorem full_viewport_safezone_empty_layout (w h : ℚ) (hw : 0 < w) (hh : 0 < h)
    (n : ℕ) (zones : List Zone) (r : ℕ → ℚ) (hr : ∀ k, 0 ≤ r k ∧ r k < 1) :
    generateLayout w h n zones (some ⟨0, 100, 0, 100⟩) r = [] := by
  have hrej : ∀ (k : ℕ)
      (hk : k < (layoutEnv w h zones (some ⟨0, 100, 0, 100⟩) r).gridCells.length) (rix : ℕ),
      acceptB (layoutEnv w h zones (some ⟨0, 100, 0, 100⟩) r)
        (candidateX (layoutEnv w h zones (some ⟨0, 100, 0, 100⟩) r)
          ((layoutEnv w h zones (some ⟨0, 100, 0, 100⟩) r).gridCells.get ⟨k, hk⟩) (r rix))
        (candidateY (layoutEnv w h zones (some ⟨0, 100, 0, 100⟩) r)
          ((layoutEnv w h zones (some ⟨0, 100, 0, 100⟩) r).gridCells.get ⟨k, hk⟩) (r (rix + 1)))
        (candScale (layoutEnv w h zones (some ⟨0, 100, 0, 100⟩) r) (r (rix + 2))) = false := by
    intro k hk rix
    have hcellmem : (layoutEnv w h zones (some ⟨0, 100, 0, 100⟩) r).gridCells.get ⟨k, hk⟩ ∈
        (layoutEnv w h zones (some ⟨0, 100, 0, 100⟩) r).gridCells := List.get_mem _ _ _
    have hcell : (layoutEnv w h zones (some ⟨0, 100, 0, 100⟩) r).gridCells.get ⟨k, hk⟩ ∈
        gridCellsOf (gridRowsOf w h) (gridColsOf w h) := shuffle_subset hcellmem
    obtain ⟨hrow, hcol⟩ := mem_gridCellsOf hcell
    obtain ⟨hu0, hu1⟩ := hr rix
    obtain ⟨hv0, hv1⟩ := hr (rix + 1)
    have hx := jittered_coord_bounds (gridColsOf w h) (gridColsOf_pos hw hh) _ hcol
      (r rix) hu0 hu1
    have hy := jittered_coord_bounds (gridRowsOf w h) (gridRowsOf_pos hw hh) _ hrow
      (r (rix + 1)) hv0 hv1
    have hxeq : candidateX (layoutEnv w h zones (some ⟨0, 100, 0, 100⟩) r)
        ((layoutEnv w h zones (some ⟨0, 100, 0, 100⟩) r).gridCells.get ⟨k, hk⟩) (r rix) =
        (((layoutEnv w h zones (some ⟨0, 100, 0, 100⟩) r).gridCells.get ⟨k, hk⟩).col + 0.5) *
          (100 / (gridColsOf w h : ℚ)) +
        (r rix - 0.5) * (100 / (gridColsOf w h : ℚ) * 0.5) := rfl
    have hyeq : candidateY (layoutEnv w h zones (some ⟨0, 100, 0, 100⟩) r)
        ((layoutEnv w h zones (some ⟨0, 100, 0, 100⟩) r).gridCells.get ⟨k, hk⟩) (r (rix + 1)) =
        (((layoutEnv w h zones (some ⟨0, 100, 0, 100⟩) r).gridCells.get ⟨k, hk⟩).row + 0.5) *
          (100 / (gridRowsOf w h : ℚ)) +
        (r (rix + 1) - 0.5) * (100 / (gridRowsOf w h : ℚ) * 0.5) := rfl
    have hsafe : inSafeZoneB (layoutEnv w h zones (some ⟨0, 100, 0, 100⟩) r).safeZone
        (candidateX (layoutEnv w h zones (some ⟨0, 100, 0, 100⟩) r)
          ((layoutEnv w h zones (some ⟨0, 100, 0, 100⟩) r).gridCells.get ⟨k, hk⟩) (r rix))
        (candidateY (layoutEnv w h zones (some ⟨0, 100, 0, 100⟩) r)
          ((layoutEnv w h zones (some ⟨0, 100, 0, 100⟩) r).gridCells.get ⟨k, hk⟩) (r (rix + 1)))
        = true := by
      show inSafeZoneB (some ⟨0, 100, 0, 100⟩) _ _ = true
      rw [inSafeZoneB]
      simp only [Bool.and_eq_true, decide_eq_true_eq, gt_iff_lt]
      rw [hxeq, hyeq]
      exact ⟨⟨⟨hx.1, hx.2⟩, hy.1⟩, hy.2⟩
    rw [acceptB, hsafe]
    simp
  have hnone := tryPlaceAux_none_of_reject _ r hrej
  rw [generateLayout, generateLayoutTrace,
    placeLoopAux_nil_of_reject _ _ _ (fun k rix => hnone _ k rix) _ _ _ _, List.map_nil]

theorem full_viewport_safezone_empty_layout_witness :
    generateLayout 1920 1080 3 [] (some ⟨0, 100, 0, 100⟩) (fun _ => 0) = [] :=
  full_viewport_safezone_empty_layout 1920 1080 (by norm_num) (by norm_num) 3 []
    (fun _ => 0) (fun _ => ⟨le_refl 0, by norm_num⟩)

/-- C4: for a 1920x1080 viewport, a 3-item catalog, no exclusion zones and
no safe zone (reference area 1920x1080, base count 20, min count 10 are the
engine's built-in constants), the target count is 20, the grid is 4 rows by
5 columns (at least 20 cells), all 20 slots are accepted so exactly 20
placements are emitted, and slot `i` references catalog entry `i % 3` — in
particular indices 0,3,6,9,12,15,18 all reference catalog item 0 — for
every valid random stream (shuffle and jitter outcomes). -/
theorem fullhd_scenario_layout (r : ℕ → ℚ) (hr : ∀ k, 0 ≤ r k ∧ r k < 1) :
    totalStickersOf 1920 1080 = 20 ∧
    gridRowsOf 1920 1080 = 4 ∧ gridColsOf 1920 1080 = 5 ∧
    20 ≤ (gridCellsOf (gridRowsOf 1920 1080) (gridColsOf 1920 1080)).length ∧
    (generateLayout 1920 1080 3 [] none r).length = 20 ∧
    (generateLayout 1920 1080 3 [] none r).map Placed.item =
      (List.range 20).map (fun i => i % 3) := by
  have h20 : totalStickersOf 1920 1080 = 20 := by with_unfolding_all rfl
  have hrows : gridRowsOf 1920 1080 = 4 := by with_unfolding_all rfl
  have hcols : gridColsOf 1920 1080 = 5 := by with_unfolding_all rfl
  have hcellslen : (gridCellsOf (gridRowsOf 1920 1080) (gridColsOf 1920 1080)).length = 20 := by
    rw [hrows, hcols, length_gridCellsOf]
  have hglen : (layoutEnv 1920 1080 [] none r).gridCells.length = 20 := by
    show (shuffle r (gridCellsOf (gridRowsOf 1920 1080) (gridColsOf 1920 1080)) 0).1.length = 20
    rw [shuffle_length]
    exact hcellslen
  have hacc : ∀ (k : ℕ) (hk : k < (layoutEnv 1920 1080 [] none r).gridCells.length) (rix : ℕ),
      acceptB (layoutEnv 1920 1080 [] none r)
        (candidateX (layoutEnv 1920 1080 [] none r)
          ((layoutEnv 1920 1080 [] none r).gridCells.get ⟨k, hk⟩) (r rix))
        (candidateY (layoutEnv 1920 1080 [] none r)
          ((layoutEnv 1920 1080 [] none r).gridCells.get ⟨k, hk⟩) (r (rix + 1)))
        (candScale (layoutEnv 1920 1080 [] none r) (r (rix + 2))) = true := by
    intro k hk rix
    have hcellmem : (layoutEnv 1920 1080 [] none r).gridCells.get ⟨k, hk⟩ ∈
        (layoutEnv 1920 1080 [] none r).gridCells := List.get_mem _ _ _
    have hcell : (layoutEnv 1920 1080 [] none r).gridCells.get ⟨k, hk⟩ ∈
        gridCellsOf (gridRowsOf 1920 1080) (gridColsOf 1920 1080) := shuffle_subset hcellmem
    obtain ⟨hrow, hcol⟩ := mem_gridCellsOf hcell
    obtain ⟨hu0, hu1⟩ := hr rix
    obtain ⟨hv0, hv1⟩ := hr (rix + 1)
    have hx := jittered_coord_bounds (gridColsOf 1920 1080) (by rw [hcols]; norm_num) _ hcol
      (r rix) hu0 hu1
    have hy := jittered_coord_bounds (gridRowsOf 1920 1080) (by rw [hrows]; norm_num) _ hrow
      (r (rix + 1)) hv0 hv1
    have hxeq : candidateX (layoutEnv 1920 1080 [] none r)
        ((layoutEnv 1920 1080 [] none r).gridCells.get ⟨k, hk⟩) (r rix) =
        (((layoutEnv 1920 1080 [] none r).gridCells.get ⟨k, hk⟩).col + 0.5) *
          (100 / (gridColsOf 1920 1080 : ℚ)) +
        (r rix - 0.5) * (100 / (gridColsOf 1920 1080 : ℚ) * 0.5) := rfl
    have hyeq : candidateY (layoutEnv 1920 1080 [] none r)
        ((layoutEnv 1920 1080 [] none r).gridCells.get ⟨k, hk⟩) (r (rix + 1)) =
        (((layoutEnv 1920 1080 [] none r).gridCells.get ⟨k, hk⟩).row + 0.5) *
          (100 / (gridRowsOf 1920 1080 : ℚ)) +
        (r (rix + 1) - 0.5) * (100 / (gridRowsOf 1920 1080 : ℚ) * 0.5) := rfl
    have hsz : (layoutEnv 1920 1080 [] none r).safeZone = none := rfl
    have hze : (layoutEnv 1920 1080 [] none r).exclusionZones = [] := rfl
    rw [acceptB, hsz, hze]
    simp only [inSafeZoneB, overlapsExclusionZone, List.any_nil, Bool.not_false, Bool.and_true,
      Bool.and_eq_true, decide_eq_true_eq, ge_iff_le]
    rw [hxeq, hyeq]
    exact ⟨⟨⟨hx.1.le, hx.2.le⟩, hy.1.le⟩, hy.2.le⟩
  have hmap := placeLoopAux_all_accept (layoutEnv 1920 1080 [] none r) r 3 hacc 20 0 0
    ((shuffle r (gridCellsOf (gridRowsOf 1920 1080) (gridColsOf 1920 1080)) 0).2) (by omega)
  have hgen : generateLayout 1920 1080 3 [] none r =
      (placeLoopAux (layoutEnv 1920 1080 [] none r) r 3 20 0 0
        ((shuffle r (gridCellsOf (gridRowsOf 1920 1080) (gridColsOf 1920 1080)) 0).2)).map
        Prod.fst := by
    rw [generateLayout, generateLayoutTrace, h20]
  have hitems : (generateLayout 1920 1080 3 [] none r).map Placed.item =
      (List.range' 0 20).map (fun j => j % 3) := by
    rw [hgen, List.map_map]
    exact hmap
  refine ⟨h20, hrows, hcols, by rw [hcellslen], ?_, ?_⟩
  · have hlen := congrArg List.length hitems
    simpa using hlen
  · rw [List.range_eq_range']
    exact hitems

theorem fullhd_scenario_layout_witness :
    totalStickersOf 1920 1080 = 20 ∧
    gridRowsOf 1920 1080 = 4 ∧ gridColsOf 1920 1080 = 5 ∧
    20 ≤ (gridCellsOf (gridRowsOf 1920 1080) (gridColsOf 1920 1080)).length ∧
    (generateLayout 1920 1080 3 [] none fun _ => 0).length = 20 ∧
    (generateLayout 1920 1080 3 [] none fun _ => 0).map Placed.item =
      (List.range 20).map (fun i => i % 3) :=
  fullhd_scenario_layout (fun _ => 0) (fun _ => ⟨le_refl 0, by norm_num⟩)

/-- C5 counterexample: the claim "the derived zone contains the element's
measured percentage rectangle (zone.xMin ≤ left%)" is false on the code:
`EXCLUSION_BUFFER_PX` is -50, so for a 1000x1000 viewport and a measured
rectangle with left edge 100px (left% = 10), the derived zone's `xMin` is
15, strictly greater than 10. -/
theorem exclusion_zone_not_outset_cex :
    (100 : ℚ) / 1000 * 100 < (exclusionZoneOf ⟨100, 200, 100, 200⟩ 1000 1000).xMin := by
  with_unfolding_all decide

/-- C5 (amended): the derived `ExclusionZone` is the measured rectangle's
percentage coordinates moved outward on each edge by `EXCLUSION_BUFFER_PX`
converted to a percentage per axis; since the configured buffer is negative
(-50px), this "outset" is an inset: for positive viewport dimensions the
derived zone is contained in the measured percentage rectangle
(zone.xMin ≥ left%, zone.xMax ≤ right%, zone.yMin ≥ top%,
zone.yMax ≤ bottom%), not containing it. -/
theorem exclusion_zone_inset_formula (rect : DomRect) (w h : ℚ)
    (hw : 0 < w) (hh : 0 < h) :
    exclusionZoneOf rect w h =
      { xMin := rect.left / w * 100 - EXCLUSION_BUFFER_PX / w * 100
        xMax := rect.right / w * 100 + EXCLUSION_BUFFER_PX / w * 100
        yMin := rect.top / h * 100 - EXCLUSION_BUFFER_PX / h * 100
        yMax := rect.bottom / h * 100 + EXCLUSION_BUFFER_PX / h * 100 } ∧
    rect.left / w * 100 ≤ (exclusionZoneOf rect w h).xMin ∧
    (exclusionZoneOf rect w h).xMax ≤ rect.right / w * 100 ∧
    rect.top / h * 100 ≤ (exclusionZoneOf rect w h).yMin ∧
    (exclusionZoneOf rect w h).yMax ≤ rect.bottom / h * 100 := by
  have hbw : EXCLUSION_BUFFER_PX / w * 100 ≤ 0 := by
    rw [EXCLUSION_BUFFER_PX]
    have h1 : (-50 : ℚ) / w ≤ 0 := div_nonpos_of_nonpos_of_nonneg (by norm_num) hw.le
    linarith
  have hbh : EXCLUSION_BUFFER_PX / h * 100 ≤ 0 := by
    rw [EXCLUSION_BUFFER_PX]
    have h1 : (-50 : ℚ) / h ≤ 0 := div_nonpos_of_nonpos_of_nonneg (by norm_num) hh.le
    linarith
  refine ⟨rfl, ?_, ?_, ?_, ?_⟩ <;>
    simp only [exclusionZoneOf] <;> linarith

theorem exclusion_zone_inset_formula_witness :
    exclusionZoneOf ⟨100, 200, 100, 200⟩ 1000 1000 =
      { xMin := (100 : ℚ) / 1000 * 100 - EXCLUSION_BUFFER_PX / 1000 * 100
        xMax := (200 : ℚ) / 1000 * 100 + EXCLUSION_BUFFER_PX / 1000 * 100
        yMin := (100 : ℚ) / 1000 * 100 - EXCLUSION_BUFFER_PX / 1000 * 100
        yMax := (200 : ℚ) / 1000 * 100 + EXCLUSION_BUFFER_PX / 1000 * 100 } ∧
    (100 : ℚ) / 1000 * 100 ≤ (exclusionZoneOf ⟨100, 200, 100, 200⟩ 1000 1000).xMin ∧
    (exclusionZoneOf ⟨100, 200, 100, 200⟩ 1000 1000).xMax ≤ (200 : ℚ) / 1000 * 100 ∧
    (100 : ℚ) / 1000 * 100 ≤ (exclusionZoneOf ⟨100, 200, 100, 200⟩ 1000 1000).yMin ∧
    (exclusionZoneOf ⟨100, 200, 100, 200⟩ 1000 1000).yMax ≤ (200 : ℚ) / 1000 * 100 :=
  exclusion_zone_inset_formula ⟨100, 200, 100, 200⟩ 1000 1000 (by norm_num) (by norm_num)

/-- C6: a layout pass is a total function (the embedding returns a plain
list for every input, including zero successful placements), it emits at
most `targetCount` items, and a slot whose inner loop finds no acceptable
cell contributes nothing to the output (the `none` branch of the loop);
no hypotheses on the inputs or the random stream are needed. -/
theorem generateLayout_length_le_target (w h : ℚ) (n : ℕ) (zones : List Zone)
    (sz : Option Zone) (r : ℕ → ℚ) :
    (generateLayout w h n zones sz r).length ≤ totalStickersOf w h := by
  rw [generateLayout, List.length_map, generateLayoutTrace]
  exact placeLoopAux_length_le _ _ _ _ _ _ _

/-- C7: the target count `max(minCount, floor(baseCount * area / refArea))`
(with the engine's constants minCount = 10, baseCount = 20,
refArea = 1920*1080) is monotone in the viewport area: whenever the second
viewport's area is at least the first's — in particular double it, or any
same-aspect enlargement — the target count does not decrease, bottoming out
at the floor of 10. -/
theorem totalStickers_monotone_in_area (w1 h1 w2 h2 : ℚ)
    (harea : w1 * h1 ≤ w2 * h2) :
    totalStickersOf w1 h1 ≤ totalStickersOf w2 h2 := by
  rw [totalStickersOf, totalStickersOf]
  have hdiv : w1 * h1 / (1920 * 1080) ≤ w2 * h2 / (1920 * 1080) := by
    exact (div_le_div_iff_of_pos_right (by norm_num)).mpr harea
  have hfl : ⌊20 * (w1 * h1 / (1920 * 1080))⌋ ≤ ⌊20 * (w2 * h2 / (1920 * 1080))⌋ :=
    Int.floor_le_floor (by linarith)
  exact Int.toNat_le_toNat (max_le_max (le_refl 10) hfl)

theorem totalStickers_monotone_in_area_witness :
    totalStickersOf 960 540 ≤ totalStickersOf 1920 1080 :=
  totalStickers_monotone_in_area 960 540 1920 1080 (by norm_num)

/-- C8: within one layout pass the shared cell cursor strictly advances
after every rejection and every acceptance and is never reset between item
slots, so the grid-cell indices from which accepted items take their
pre-jitter centres are strictly increasing along the output, and in
particular pairwise distinct — for every input and every random stream. -/
theorem accepted_cell_indices_distinct (w h : ℚ) (n : ℕ) (zones : List Zone)
    (sz : Option Zone) (r : ℕ → ℚ) :
    ((generateLayoutTrace w h n zones sz r).map Prod.snd).Pairwise (fun a b => a < b) ∧
    ((generateLayoutTrace w h n zones sz r).map Prod.snd).Pairwise (fun a b => a ≠ b) := by
  have hpw : (generateLayoutTrace w h n zones sz r).Pairwise (fun a b => a.2 < b.2) := by
    rw [generateLayoutTrace]
    exact (placeLoopAux_trace _ r n _ _ _ _).2
  constructor
  · exact List.pairwise_map.mpr hpw
  · exact List.pairwise_map.mpr (hpw.imp fun hab => Nat.ne_of_lt hab)

/-- C9: for a zero or negative `parallaxFactor` the Sticker parallax effect
applies the identity offset (0, 0) for every mouse position and every
device orientation: the guard returns before any handler that divides by
`parallaxFactor` is attached, so the division is unreachable. -/
theorem nonpositive_parallax_identity (parallaxFactor w h : ℚ)
    (hpf : parallaxFactor ≤ 0) (e : PointerEvent) :
    stickerOffset parallaxFactor w h e = (0, 0) := by
  rw [stickerOffset.eq_def, if_pos hpf]

theorem nonpositive_parallax_identity_witness :
    stickerOffset 0 1920 1080 (.mouse 37 101) = (0, 0) :=
  nonpositive_parallax_identity 0 1920 1080 (le_refl 0) (.mouse 37 101)
